import Mathlib

/-!
Shallow embedding of the visualization-scale management core of the
earthquake dashboard.

Sources embedded here:
* `src/components/chart/EarthquakeChart.tsx` — `downsampleData` (spatial
  downsampling / grid clustering) and the cluster branch of `handleDotClick`
  (zoom-rectangle computation);
* `src/components/table/EarthquakeTable.tsx` — the auto-scroll effect that
  reacts to a change of the selected earthquake;
* `src/stores/earthquakeStore.ts` — `toggleRegion` and `resetFilters`.

Modelling conventions:
* JavaScript `number` values are modelled as `ℚ`.  All arithmetic the
  theorems below evaluate is exact in IEEE doubles as well (small integers,
  halves and tenths, square roots of perfect squares), and the general
  theorems hold for every value of the derived quantities (grid edge
  length, means), so nothing below depends on rounding.
* `Math.sqrt` is modelled by `Rat.sqrt`, which agrees with it on the
  perfect squares at which concrete theorems evaluate it and satisfies
  `Rat.sqrt 0 = 0` just as `Math.sqrt(0) = 0`.
* JavaScript division by zero produces `Infinity`/`-Infinity`/`NaN`; the
  only place this can happen in the embedded code is the grid-cell index
  computation `Math.floor(x / gridSize)` when `gridSize = 0`, so the cell
  index type `GridCoord` has explicit `posInf`/`negInf`/`nan` values.
  The template key `` `${gridX},${gridY}` `` identifies two keys exactly
  when the coordinate values coincide (all `NaN` indices print as the one
  string "NaN", so they collide, which `nan = nan` reproduces).
* A JS `Map` preserves key insertion order and `forEach` iterates in that
  order; `groupPoints` below builds the association list in exactly that
  order.
-/

namespace EarthquakeDashboard

/-- `ChartDataPoint` from `EarthquakeChart.tsx`: chart points converted from
earthquake records, plus the optional cluster fields a downsampling pass can
attach.  Plain chart points are built with the defaults
(`isCluster = false`, no cluster payload). -/
structure ChartDataPoint where
  id : String
  x : ℚ
  y : ℚ
  magnitude : ℚ
  place : String
  isCluster : Bool := false
  clusterSize : Option ℕ := none
  earthquakeIds : Option (List String) := none
  deriving DecidableEq, Repr

/-- `ZoomState` from `EarthquakeChart.tsx`: the viewport rectangle. -/
structure ZoomState where
  xMin : ℚ
  xMax : ℚ
  yMin : ℚ
  yMax : ℚ
  deriving DecidableEq, Repr

/-- The viewport-restriction predicate of `downsampleData` (lines 52–55):
`point.x >= xMin && point.x <= xMax && point.y >= yMin && point.y <= yMax`,
inclusive on all four bounds. -/
def inViewport (z : ZoomState) (p : ChartDataPoint) : Bool :=
  z.xMin ≤ p.x && p.x ≤ z.xMax && z.yMin ≤ p.y && p.y ≤ z.yMax

/-- `Math.max(...xs)` for the nonempty arrays the chart code applies it to.
(The grid stage of `downsampleData` only reaches it with a nonempty point
list, and `handleDotClick` only with a nonempty member list.) -/
def maxList (xs : List ℚ) : ℚ :=
  match xs with
  | [] => 0
  | a :: rest => rest.foldl max a

/-- `Math.min(...xs)` for the nonempty arrays the chart code applies it to. -/
def minList (xs : List ℚ) : ℚ :=
  match xs with
  | [] => 0
  | a :: rest => rest.foldl min a

/-- The value of a grid-cell index `Math.floor(coordinate / gridSize)` as it
appears in the string key `` `${gridX},${gridY}` ``.  A zero grid size makes
the JS division produce `Infinity`, `-Infinity` or `NaN` (never an
exception), which `Math.floor` maps to itself and the template string maps
to the three strings "Infinity", "-Infinity" and "NaN". -/
inductive GridCoord where
  | fin : ℤ → GridCoord
  | posInf : GridCoord
  | negInf : GridCoord
  | nan : GridCoord
  deriving DecidableEq, Repr

/-- `Math.floor(v / edge)` with JS division semantics (lines 72–73 of
`EarthquakeChart.tsx`).  The grid edge is a real square root, hence never
negative, so the `edge = 0` branch is the only non-finite case. -/
def gridIndex (v edge : ℚ) : GridCoord :=
  if edge = 0 then
    if 0 < v then GridCoord.posInf
    else if v < 0 then GridCoord.negInf
    else GridCoord.nan
  else GridCoord.fin ⌊v / edge⌋

/-- The `Map` key `` `${gridX},${gridY}` `` of a point. -/
abbrev GridKey := GridCoord × GridCoord

/-- The grid key of a point (lines 72–74). -/
def pointKey (edge : ℚ) (p : ChartDataPoint) : GridKey :=
  (gridIndex p.x edge, gridIndex p.y edge)

/-- One step of the `Map`-building loop (lines 76–79): append the point to
its cell's array, creating the cell at the end of the key order when new
(`Map.set` appends new keys in insertion order). -/
def insertPoint (acc : List (GridKey × List ChartDataPoint)) (k : GridKey)
    (p : ChartDataPoint) : List (GridKey × List ChartDataPoint) :=
  match acc with
  | [] => [(k, [p])]
  | (k₂, ps) :: rest =>
    if k₂ = k then (k₂, ps ++ [p]) :: rest
    else (k₂, ps) :: insertPoint rest k p

/-- The `clusters` map after the `filteredPoints.forEach` loop (lines
68–80), as an insertion-ordered association list. -/
def groupPoints (points : List ChartDataPoint) (edge : ℚ) :
    List (GridKey × List ChartDataPoint) :=
  points.foldl (fun acc p => insertPoint acc (pointKey edge p) p) []

/-- The cluster representative built for a multi-point cell (lines 91–104):
coordinates are the arithmetic mean (`reduce` sum divided by length),
magnitude the member maximum, and the member ids are carried verbatim. -/
def mkCluster (clusterPoints : List ChartDataPoint) : ChartDataPoint :=
  { id := "cluster_" ++ String.intercalate "_" (clusterPoints.map (fun p => p.id))
    x := (clusterPoints.map (fun p => p.x)).sum / (clusterPoints.length : ℚ)
    y := (clusterPoints.map (fun p => p.y)).sum / (clusterPoints.length : ℚ)
    magnitude := maxList (clusterPoints.map (fun p => p.magnitude))
    place := toString clusterPoints.length ++ " earthquakes in this area"
    isCluster := true
    clusterSize := some clusterPoints.length
    earthquakeIds := some (clusterPoints.map (fun p => p.id)) }

/-- The entry a cell contributes to `downsampled` (lines 85–106): a cell of
exactly one point pushes `clusterPoints[0]` unchanged, a larger cell pushes
the cluster representative. -/
def cellEntry (clusterPoints : List ChartDataPoint) : ChartDataPoint :=
  match clusterPoints with
  | [p] => p
  | _ => mkCluster clusterPoints

/-- The grid edge length (lines 64–67):
`Math.sqrt((xRange * yRange) / maxPoints)` where `xRange`/`yRange` are the
spans of the processed points. -/
def gridSizeOf (points : List ChartDataPoint) (maxPoints : ℕ) : ℚ :=
  Rat.sqrt
    (((maxList (points.map (fun p => p.x)) - minList (points.map (fun p => p.x)))
        * (maxList (points.map (fun p => p.y)) - minList (points.map (fun p => p.y))))
      / (maxPoints : ℚ))

/-- The grid-clustering stage of `downsampleData` (lines 63–108): group the
points into cells, then emit one entry per cell in key insertion order. -/
def gridCluster (points : List ChartDataPoint) (maxPoints : ℕ) :
    List ChartDataPoint :=
  (groupPoints points (gridSizeOf points maxPoints)).map (fun kc => cellEntry kc.2)

/-- The point list the grid stage operates on: the whole input, or the
viewport-restricted subset when a zoom rectangle is active (lines 50–61). -/
def processedPoints (points : List ChartDataPoint) (zoomState : Option ZoomState) :
    List ChartDataPoint :=
  match zoomState with
  | some z => points.filter (inViewport z)
  | none => points

/-- `downsampleData` (lines 40–109).  Early returns: the untouched input
when it is small enough; the viewport-restricted subset when a zoom
rectangle is active and the restriction is small enough.  Otherwise the
grid-clustering stage runs on the processed points. -/
def downsampleData (points : List ChartDataPoint) (maxPoints : ℕ)
    (zoomState : Option ZoomState) : List ChartDataPoint :=
  if points.length ≤ maxPoints then points
  else
    match zoomState with
    | some z =>
      let filteredPoints := points.filter (inViewport z)
      if filteredPoints.length ≤ maxPoints then filteredPoints
      else gridCluster filteredPoints maxPoints
    | none => gridCluster points maxPoints

/-- The weight an output entry carries in the chart's own accounting
(line 142–144 of `EarthquakeChart.tsx`): a cluster stands for
`clusterSize` earthquakes, an individual entry for one. -/
def entryWeight (p : ChartDataPoint) : ℕ :=
  if p.isCluster then p.clusterSize.getD 0 else 1

/-- A record of the earthquake data array as seen by `handleDotClick` under
the active axis pair: `x` stands for `eq[xAxis]` and `y` for `eq[yAxis]`
(both numeric for every plottable record). -/
structure AxisRecord where
  id : String
  x : ℚ
  y : ℚ
  deriving DecidableEq, Repr

/-- The cluster branch of `handleDotClick` (lines 250–274 of
`EarthquakeChart.tsx`): filter the data to the cluster's member ids, take
the bounding box of their axis values, and expand it by the 10% `margin` on
each side. -/
def computeClusterZoom (data : List AxisRecord) (memberIds : List String) :
    ZoomState :=
  let margin : ℚ := 1 / 10
  let allClusterPoints := data.filter (fun r => memberIds.contains r.id)
  let xValues := allClusterPoints.map (fun r => r.x)
  let yValues := allClusterPoints.map (fun r => r.y)
  let xMin := minList xValues
  let xMax := maxList xValues
  let yMin := minList yValues
  let yMax := maxList yValues
  let xRange := xMax - xMin
  let yRange := yMax - yMin
  { xMin := xMin - xRange * margin
    xMax := xMax + xRange * margin
    yMin := yMin - yRange * margin
    yMax := yMax + yRange * margin }

/-- The alignment option of a virtualizer scroll request. -/
inductive ScrollAlign where
  | alignStart : ScrollAlign
  | alignCenter : ScrollAlign
  | alignEnd : ScrollAlign
  deriving DecidableEq, Repr

/-- A `scrollToIndex` request issued to the row virtualizer: target index,
alignment, and whether the `smooth` behavior flag is set. -/
structure ScrollRequest where
  index : ℕ
  align : ScrollAlign
  smooth : Bool
  deriving DecidableEq, Repr

/-- A row of the table's current (sorted and filtered) row model; `id` is
`row.original.id` (which `getRowId` also uses as `row.id`). -/
structure TableRow where
  id : String
  deriving DecidableEq, Repr

/-- `rows.findIndex(row => row.original.id === sid)`, with `none` standing
for the `-1` result: the index of the first row carrying the id. -/
def findIndex (rows : List TableRow) (sid : String) : Option ℕ :=
  match rows with
  | [] => none
  | r :: rest =>
    if r.id = sid then some 0 else (findIndex rest sid).map (fun i => i + 1)

/-- The auto-scroll effect of `EarthquakeTable.tsx` (lines 300–312): when an
earthquake is selected, look its id up in the current sorted rows; issue one
centered smooth `scrollToIndex` when found, and do nothing at all when not
(`rowIndex === -1`) or when nothing is selected.  The result lists the
scroll requests the effect run issues. -/
def autoScrollEffect (rows : List TableRow) (selectedId : Option String) :
    List ScrollRequest :=
  match selectedId with
  | none => []
  | some sid =>
    match findIndex rows sid with
    | some i => [{ index := i, align := ScrollAlign.alignCenter, smooth := true }]
    | none => []

/-- The data fields of `useEarthquakeStore` (`earthquakeStore.ts`, lines
21–27): selection/hover ids plus the filter state. -/
structure FilterState where
  selectedId : Option String
  hoveredId : Option String
  minMagnitude : ℚ
  maxMagnitude : ℚ
  selectedRegions : List String
  deriving DecidableEq, Repr

/-- `toggleRegion` (lines 37–41 of `earthquakeStore.ts`): remove every
occurrence of the region when present (`filter(r => r !== region)`), append
it otherwise. -/
def toggleRegion (state : FilterState) (region : String) : FilterState :=
  { state with
    selectedRegions :=
      if state.selectedRegions.contains region then
        state.selectedRegions.filter (fun r => r != region)
      else
        state.selectedRegions ++ [region] }

/-- `resetFilters` (lines 59–65 of `earthquakeStore.ts`): one `set` call
writing all five data fields, so the result does not depend on the prior
state. -/
def resetFilters (_state : FilterState) : FilterState :=
  { selectedId := none
    hoveredId := none
    minMagnitude := 0
    maxMagnitude := 10
    selectedRegions := [] }

/-! ### Concrete inputs used by counterexamples and witnesses -/

/-- Three plain chart points in an elongated configuration: the spans are
`xRange = 4`, `yRange = 2`, so with `maxPoints = 2` the grid edge is
`sqrt(4·2/2) = 2` (exact, also in IEEE doubles) and the three points land
in three distinct grid cells. -/
def exElongated : List ChartDataPoint :=
  [{ id := "a", x := 0, y := 0, magnitude := 1, place := "pa" },
   { id := "b", x := 2, y := 0, magnitude := 2, place := "pb" },
   { id := "c", x := 4, y := 2, magnitude := 3, place := "pc" }]

/-- Three plain chart points sharing their x coordinate: `xRange = 0`, so
the grid edge evaluates to `sqrt(0) = 0`. -/
def exVertical : List ChartDataPoint :=
  [{ id := "a", x := 5, y := 1, magnitude := 1, place := "pa" },
   { id := "b", x := 5, y := 2, magnitude := 2, place := "pb" },
   { id := "c", x := 5, y := 3, magnitude := 3, place := "pc" }]

/-- Three coincident plain chart points (the spec's all-points-coincide
scenario). -/
def exCoincident : List ChartDataPoint :=
  [{ id := "a", x := 1, y := 1, magnitude := 1, place := "pa" },
   { id := "b", x := 1, y := 1, magnitude := 3, place := "pb" },
   { id := "c", x := 1, y := 1, magnitude := 2, place := "pc" }]

/-- A single plain chart point, outside `exViewportOff`. -/
def exSmallPoint : ChartDataPoint :=
  { id := "w", x := 0, y := 0, magnitude := 1, place := "pw" }

/-- A viewport rectangle that contains none of the example points. -/
def exViewportOff : ZoomState :=
  { xMin := 1, xMax := 2, yMin := 1, yMax := 2 }

/-- Earthquake records under the active axis pair; "a" and "b" share their
x value, so a cluster of exactly these two has an x-span of zero. -/
def exAxisData : List AxisRecord :=
  [{ id := "a", x := 3, y := 0 },
   { id := "b", x := 3, y := 5 },
   { id := "c", x := 9, y := 9 }]

/-- The member ids of the activated cluster: "a" and "b". -/
def exMemberIds : List String := ["a", "b"]

/-- A concrete sorted row order for the auto-scroll witness. -/
def exRows : List TableRow := [{ id := "r0" }, { id := "r1" }, { id := "r2" }]

/-- A concrete store state with a selection, a hover and one region. -/
def exFilterState : FilterState :=
  { selectedId := some "q"
    hoveredId := some "h"
    minMagnitude := 2
    maxMagnitude := 8
    selectedRegions := ["alaska"] }

/-! ### Library lemmas about the nonempty fold-based maximum and minimum -/

lemma le_foldl_max (rest : List ℚ) (a : ℚ) :
    a ≤ rest.foldl max a ∧ ∀ v ∈ rest, v ≤ rest.foldl max a := by
  induction rest generalizing a with
  | nil => simp
  | cons b t ih =>
    simp only [List.foldl_cons]
    have h := ih (max a b)
    refine ⟨le_trans (le_max_left a b) h.1, ?_⟩
    intro v hv
    rcases List.mem_cons.mp hv with rfl | hv₁
    · exact le_trans (le_max_right a _) h.1
    · exact h.2 v hv₁

lemma foldl_max_mem (rest : List ℚ) (a : ℚ) : rest.foldl max a ∈ a :: rest := by
  induction rest generalizing a with
  | nil => simp
  | cons b t ih =>
    have h := ih (max a b)
    simp only [List.foldl_cons]
    rcases List.mem_cons.mp h with h₁ | h₁
    · rcases max_choice a b with hc | hc
      · rw [h₁, hc]; simp
      · rw [h₁, hc]; simp
    · simp [List.mem_cons.mpr (Or.inr h₁)]

lemma le_maxList (xs : List ℚ) (v : ℚ) (hv : v ∈ xs) : v ≤ maxList xs := by
  match xs with
  | [] => cases hv
  | a :: rest =>
    rcases List.mem_cons.mp hv with h | h
    · exact h ▸ (le_foldl_max rest a).1
    · exact (le_foldl_max rest a).2 v h

lemma maxList_mem (xs : List ℚ) (h : xs ≠ []) : maxList xs ∈ xs := by
  match xs with
  | [] => exact absurd rfl h
  | a :: rest => exact foldl_max_mem rest a

lemma foldl_min_le (rest : List ℚ) (a : ℚ) :
    rest.foldl min a ≤ a ∧ ∀ v ∈ rest, rest.foldl min a ≤ v := by
  induction rest generalizing a with
  | nil => simp
  | cons b t ih =>
    simp only [List.foldl_cons]
    have h := ih (min a b)
    refine ⟨le_trans h.1 (min_le_left a b), ?_⟩
    intro v hv
    rcases List.mem_cons.mp hv with rfl | hv₁
    · exact le_trans h.1 (min_le_right a _)
    · exact h.2 v hv₁

lemma foldl_min_mem (rest : List ℚ) (a : ℚ) : rest.foldl min a ∈ a :: rest := by
  induction rest generalizing a with
  | nil => simp
  | cons b t ih =>
    have h := ih (min a b)
    simp only [List.foldl_cons]
    rcases List.mem_cons.mp h with h₁ | h₁
    · rcases min_choice a b with hc | hc
      · rw [h₁, hc]; simp
      · rw [h₁, hc]; simp
    · simp [List.mem_cons.mpr (Or.inr h₁)]

lemma minList_le (xs : List ℚ) (v : ℚ) (hv : v ∈ xs) : minList xs ≤ v := by
  match xs with
  | [] => cases hv
  | a :: rest =>
    rcases List.mem_cons.mp hv with h | h
    · exact h ▸ (foldl_min_le rest a).1
    · exact (foldl_min_le rest a).2 v h

lemma minList_mem (xs : List ℚ) (h : xs ≠ []) : minList xs ∈ xs := by
  match xs with
  | [] => exact absurd rfl h
  | a :: rest => exact foldl_min_mem rest a

/-! ### Lemmas about the grid `Map` construction -/

lemma insertPoint_sizes (acc : List (GridKey × List ChartDataPoint))
    (k : GridKey) (p : ChartDataPoint) :
    ((insertPoint acc k p).map (fun kc => kc.2.length)).sum
      = (acc.map (fun kc => kc.2.length)).sum + 1 := by
  induction acc with
  | nil => simp [insertPoint]
  | cons kc rest ih =>
    obtain ⟨k₂, ps⟩ := kc
    by_cases h : k₂ = k
    · simp only [insertPoint, if_pos h, List.map_cons, List.sum_cons,
        List.length_append, List.length_cons, List.length_nil]
      omega
    · simp only [insertPoint, if_neg h, List.map_cons, List.sum_cons, ih]
      omega

lemma insertPoint_ne_nil (acc : List (GridKey × List ChartDataPoint))
    (k : GridKey) (p : ChartDataPoint)
    (hacc : ∀ kc ∈ acc, kc.2 ≠ []) :
    ∀ kc ∈ insertPoint acc k p, kc.2 ≠ [] := by
  induction acc with
  | nil => simp [insertPoint]
  | cons kc₀ rest ih =>
    obtain ⟨k₂, ps⟩ := kc₀
    intro kc hkc
    by_cases h : k₂ = k
    · simp only [insertPoint, if_pos h] at hkc
      rcases List.mem_cons.mp hkc with h₁ | h₁
      · subst h₁; simp
      · exact hacc kc (List.mem_cons.mpr (Or.inr h₁))
    · simp only [insertPoint, if_neg h] at hkc
      rcases List.mem_cons.mp hkc with h₁ | h₁
      · subst h₁; exact hacc (k₂, ps) (List.mem_cons.mpr (Or.inl rfl))
      · exact ih (fun kc₁ hkc₁ => hacc kc₁ (List.mem_cons.mpr (Or.inr hkc₁))) kc h₁

lemma insertPoint_mem (acc : List (GridKey × List ChartDataPoint))
    (k : GridKey) (p : ChartDataPoint) {P : ChartDataPoint → Prop}
    (hacc : ∀ kc ∈ acc, ∀ q ∈ kc.2, P q) (hp : P p) :
    ∀ kc ∈ insertPoint acc k p, ∀ q ∈ kc.2, P q := by
  induction acc with
  | nil =>
    intro kc hkc q hq
    simp only [insertPoint, List.mem_singleton] at hkc
    subst hkc
    simp only [List.mem_singleton] at hq
    exact hq ▸ hp
  | cons kc₀ rest ih =>
    obtain ⟨k₂, ps⟩ := kc₀
    intro kc hkc q hq
    by_cases h : k₂ = k
    · simp only [insertPoint, if_pos h] at hkc
      rcases List.mem_cons.mp hkc with h₁ | h₁
      · subst h₁
        rcases List.mem_append.mp hq with h₂ | h₂
        · exact hacc (k₂, ps) (List.mem_cons.mpr (Or.inl rfl)) q h₂
        · simp only [List.mem_singleton] at h₂
          exact h₂ ▸ hp
      · exact hacc kc (List.mem_cons.mpr (Or.inr h₁)) q hq
    · simp only [insertPoint, if_neg h] at hkc
      rcases List.mem_cons.mp hkc with h₁ | h₁
      · subst h₁
        exact hacc (k₂, ps) (List.mem_cons.mpr (Or.inl rfl)) q hq
      · exact ih (fun kc₁ hkc₁ => hacc kc₁ (List.mem_cons.mpr (Or.inr hkc₁))) kc h₁ q hq

lemma groupPoints_go_sizes (points : List ChartDataPoint) (edge : ℚ)
    (acc : List (GridKey × List ChartDataPoint)) :
    ((points.foldl (fun a q => insertPoint a (pointKey edge q) q) acc).map
        (fun kc => kc.2.length)).sum
      = (acc.map (fun kc => kc.2.length)).sum + points.length := by
  induction points generalizing acc with
  | nil => simp
  | cons p rest ih =>
    simp only [List.foldl_cons, List.length_cons, ih, insertPoint_sizes]
    omega

/-- The cell sizes of the grid `Map` add up to the number of processed
points: the grouping loop is a partition. -/
lemma groupPoints_sizes (points : List ChartDataPoint) (edge : ℚ) :
    ((groupPoints points edge).map (fun kc => kc.2.length)).sum
      = points.length := by
  simpa using groupPoints_go_sizes points edge []

lemma groupPoints_go_ne_nil (points : List ChartDataPoint) (edge : ℚ)
    (acc : List (GridKey × List ChartDataPoint))
    (hacc : ∀ kc ∈ acc, kc.2 ≠ []) :
    ∀ kc ∈ points.foldl (fun a q => insertPoint a (pointKey edge q) q) acc,
      kc.2 ≠ [] := by
  induction points generalizing acc with
  | nil => exact hacc
  | cons p rest ih =>
    simp only [List.foldl_cons]
    exact ih _ (insertPoint_ne_nil acc (pointKey edge p) p hacc)

/-- Every cell of the grid `Map` is nonempty. -/
lemma groupPoints_ne_nil (points : List ChartDataPoint) (edge : ℚ) :
    ∀ kc ∈ groupPoints points edge, kc.2 ≠ [] :=
  groupPoints_go_ne_nil points edge [] (by simp)

lemma groupPoints_go_mem (points : List ChartDataPoint) (edge : ℚ)
    (points₀ : List ChartDataPoint) :
    ∀ acc : List (GridKey × List ChartDataPoint),
      (∀ kc ∈ acc, ∀ q ∈ kc.2, q ∈ points) →
      (∀ q ∈ points₀, q ∈ points) →
      ∀ kc ∈ points₀.foldl (fun a q => insertPoint a (pointKey edge q) q) acc,
        ∀ q ∈ kc.2, q ∈ points := by
  induction points₀ with
  | nil => intro acc hacc _; exact hacc
  | cons p rest ih =>
    intro acc hacc hsub
    simp only [List.foldl_cons]
    exact ih _
      (insertPoint_mem acc (pointKey edge p) p hacc
        (hsub p (List.mem_cons.mpr (Or.inl rfl))))
      (fun q hq => hsub q (List.mem_cons.mpr (Or.inr hq)))

/-- Every member of a grid cell is one of the processed points. -/
lemma groupPoints_mem (points : List ChartDataPoint) (edge : ℚ) :
    ∀ kc ∈ groupPoints points edge, ∀ q ∈ kc.2, q ∈ points :=
  groupPoints_go_mem points edge points [] (by simp) (fun _ hq => hq)

lemma length_le_sizes (cells : List (GridKey × List ChartDataPoint))
    (h : ∀ kc ∈ cells, kc.2 ≠ []) :
    cells.length ≤ (cells.map (fun kc => kc.2.length)).sum := by
  induction cells with
  | nil => simp
  | cons kc rest ih =>
    have h₁ : 0 < kc.2.length :=
      List.length_pos.mpr (h kc (List.mem_cons.mpr (Or.inl rfl)))
    have h₂ := ih (fun kc₁ hkc₁ => h kc₁ (List.mem_cons.mpr (Or.inr hkc₁)))
    simp only [List.length_cons, List.map_cons, List.sum_cons]
    omega

/-! ### Bridge lemmas relating `downsampleData` to its grid stage -/

/-- When the input exceeds `maxPoints` and (with a viewport) so does the
restriction, `downsampleData` runs the grid-clustering stage on the
processed points. -/
lemma downsampleData_grid_eq (points : List ChartDataPoint) (maxPoints : ℕ)
    (zoomState : Option ZoomState)
    (h₁ : maxPoints < points.length)
    (h₂ : ∀ z, zoomState = some z →
      maxPoints < (points.filter (inViewport z)).length) :
    downsampleData points maxPoints zoomState
      = gridCluster (processedPoints points zoomState) maxPoints := by
  cases zoomState with
  | none => simp [downsampleData, processedPoints, Nat.not_le.mpr h₁]
  | some z =>
    simp [downsampleData, processedPoints, Nat.not_le.mpr h₁,
      Nat.not_le.mpr (h₂ z rfl)]

lemma entryWeight_cellEntry (cps : List ChartDataPoint) (hne : cps ≠ [])
    (hplain : ∀ p ∈ cps, p.isCluster = false) :
    entryWeight (cellEntry cps) = cps.length := by
  match cps with
  | [] => exact absurd rfl hne
  | [p] => simp [cellEntry, entryWeight, hplain p (by simp)]
  | p :: q :: rest => simp [cellEntry, mkCluster, entryWeight]

/-- Splitting the weight sum of a list of entries into the cluster sizes
plus the count of individual entries. -/
lemma weight_split (l : List ChartDataPoint) :
    ((l.filter (fun p => p.isCluster)).map (fun p => p.clusterSize.getD 0)).sum
      + (l.filter (fun p => !p.isCluster)).length
      = (l.map entryWeight).sum := by
  induction l with
  | nil => simp
  | cons p rest ih =>
    by_cases h : p.isCluster
    · simp only [List.filter_cons, h, if_pos, List.map_cons, List.sum_cons,
        entryWeight, Bool.not_true, Bool.false_eq_true, if_false, if_true]
      omega
    · have h' : p.isCluster = false := by simpa using h
      simp only [List.filter_cons, h', Bool.false_eq_true, if_false,
        Bool.not_false, if_true, List.length_cons, List.map_cons,
        List.sum_cons, entryWeight]
      omega

/-- The weight sum of the grid stage's output equals the number of points
it processed, provided those points are plain chart points. -/
lemma gridCluster_weight (points : List ChartDataPoint) (maxPoints : ℕ)
    (hplain : ∀ p ∈ points, p.isCluster = false) :
    ((gridCluster points maxPoints).map entryWeight).sum = points.length := by
  unfold gridCluster
  rw [List.map_map]
  have hne := groupPoints_ne_nil points (gridSizeOf points maxPoints)
  have hmem := groupPoints_mem points (gridSizeOf points maxPoints)
  have hcong :
      (groupPoints points (gridSizeOf points maxPoints)).map
          (entryWeight ∘ fun kc => cellEntry kc.2)
        = (groupPoints points (gridSizeOf points maxPoints)).map
          (fun kc => kc.2.length) :=
    List.map_congr_left (fun kc hkc =>
      entryWeight_cellEntry kc.2 (hne kc hkc)
        (fun p hp => hplain p (hmem kc hkc p hp)))
  rw [hcong, groupPoints_sizes]

/-- The grid stage never emits more entries than it was given points. -/
lemma gridCluster_length_le (points : List ChartDataPoint) (maxPoints : ℕ) :
    (gridCluster points maxPoints).length ≤ points.length := by
  unfold gridCluster
  rw [List.length_map]
  calc (groupPoints points (gridSizeOf points maxPoints)).length
      ≤ ((groupPoints points (gridSizeOf points maxPoints)).map
          (fun kc => kc.2.length)).sum :=
        length_le_sizes _ (groupPoints_ne_nil points _)
    _ = points.length := groupPoints_sizes points _

/-- Correctness of the `findIndex` model: a `some i` result points at the
first row carrying the id, and `none` means no row carries it. -/
lemma findIndex_spec (rows : List TableRow) (sid : String) :
    (∀ i, findIndex rows sid = some i →
      (∃ r, rows[i]? = some r ∧ r.id = sid) ∧ ∀ r ∈ rows.take i, r.id ≠ sid)
  ∧ (findIndex rows sid = none ↔ ∀ r ∈ rows, r.id ≠ sid) := by
  induction rows with
  | nil => simp [findIndex]
  | cons r rest ih =>
    by_cases h : r.id = sid
    · refine ⟨?_, ?_⟩
      · intro i hi
        simp only [findIndex, if_pos h] at hi
        obtain rfl : (0 : ℕ) = i := Option.some.inj hi
        exact ⟨⟨r, by simp, h⟩, by simp⟩
      · simp only [findIndex, if_pos h]
        constructor
        · intro hnone; cases hnone
        · intro hall; exact absurd h (hall r (List.mem_cons.mpr (Or.inl rfl)))
    · refine ⟨?_, ?_⟩
      · intro i hi
        simp only [findIndex, if_neg h] at hi
        obtain ⟨j, hj, rfl⟩ := Option.map_eq_some'.mp hi
        obtain ⟨⟨r₁, hr₁, hr₁id⟩, htake⟩ := ih.1 j hj
        refine ⟨⟨r₁, by simpa using hr₁, hr₁id⟩, ?_⟩
        intro r₂ hr₂
        simp only [List.take_succ_cons] at hr₂
        rcases List.mem_cons.mp hr₂ with rfl | hr₂
        · exact h
        · exact htake r₂ hr₂
      · simp only [findIndex, if_neg h, Option.map_eq_none']
        rw [ih.2]
        constructor
        · intro hall r₁ hr₁
          rcases List.mem_cons.mp hr₁ with rfl | hr₁
          · exact h
          · exact hall r₁ hr₁
        · intro hall r₁ hr₁
          exact hall r₁ (List.mem_cons.mpr (Or.inr hr₁))

/-- A cell with at least two members contributes the cluster
representative. -/
lemma cellEntry_eq_mkCluster (cps : List ChartDataPoint)
    (h : 2 ≤ cps.length) : cellEntry cps = mkCluster cps := by
  match cps with
  | [] => simp at h
  | [p] => simp at h
  | p :: q :: rest => rfl

/-- The processed points are drawn from the input list. -/
lemma processedPoints_subset (points : List ChartDataPoint)
    (zoomState : Option ZoomState) :
    ∀ p ∈ processedPoints points zoomState, p ∈ points := by
  cases zoomState with
  | none => exact fun p hp => hp
  | some z => exact fun p hp => List.mem_of_mem_filter hp

lemma groupPoints_const_go (edge : ℚ) (k : GridKey)
    (pts : List ChartDataPoint) (hk : ∀ p ∈ pts, pointKey edge p = k) :
    ∀ l : List ChartDataPoint,
      pts.foldl (fun a q => insertPoint a (pointKey edge q) q) [(k, l)]
        = [(k, l ++ pts)] := by
  induction pts with
  | nil => intro l; simp
  | cons p rest ih =>
    intro l
    have hp : pointKey edge p = k := hk p (List.mem_cons.mpr (Or.inl rfl))
    simp only [List.foldl_cons, insertPoint, if_pos hp.symm]
    rw [ih (fun q hq => hk q (List.mem_cons.mpr (Or.inr hq))) (l ++ [p])]
    simp

/-- When every point carries the same grid key (in particular when all
points coincide), the grid `Map` has exactly one cell holding all of
them. -/
lemma groupPoints_const (edge : ℚ) (k : GridKey)
    (points : List ChartDataPoint) (hne : points ≠ [])
    (hk : ∀ p ∈ points, pointKey edge p = k) :
    groupPoints points edge = [(k, points)] := by
  match points with
  | [] => exact absurd rfl hne
  | p :: rest =>
    have hp : pointKey edge p = k := hk p (List.mem_cons.mpr (Or.inl rfl))
    unfold groupPoints
    simp only [List.foldl_cons, insertPoint, hp]
    rw [groupPoints_const_go edge k rest
      (fun q hq => hk q (List.mem_cons.mpr (Or.inr hq))) [p]]
    simp

/-! ### Claim theorems -/

/-- C1 (amended): `downsampleData` never returns more entries than the
input has points — its output length is bounded by the processed point
count — but the spec's bound `max(maxPoints, 1)` does not hold in general
(see the counterexample). -/
theorem downsample_length_le_spec (points : List ChartDataPoint)
    (maxPoints : ℕ) (zoomState : Option ZoomState) :
    (downsampleData points maxPoints zoomState).length ≤ points.length := by
  unfold downsampleData
  by_cases h : points.length ≤ maxPoints
  · simp [h]
  · simp only [if_neg h]
    cases zoomState with
    | none => exact gridCluster_length_le points maxPoints
    | some z =>
      by_cases h₂ : (points.filter (inViewport z)).length ≤ maxPoints
      · simp only [if_pos h₂]
        exact List.length_filter_le _ _
      · simp only [if_neg h₂]
        exact le_trans (gridCluster_length_le _ maxPoints)
          (List.length_filter_le _ _)

/-- C2: when the grid-clustering stage runs, the sum of `clusterSize` over
the cluster entries plus the count of individual entries equals the number
of processed points (the whole input, or the viewport-restricted subset). -/
theorem downsample_conservation (points : List ChartDataPoint)
    (maxPoints : ℕ) (zoomState : Option ZoomState)
    (hplain : ∀ p ∈ points, p.isCluster = false)
    (h₁ : maxPoints < points.length)
    (h₂ : ∀ z, zoomState = some z →
      maxPoints < (points.filter (inViewport z)).length) :
    (((downsampleData points maxPoints zoomState).filter
        (fun p => p.isCluster)).map (fun p => p.clusterSize.getD 0)).sum
      + ((downsampleData points maxPoints zoomState).filter
          (fun p => !p.isCluster)).length
      = (processedPoints points zoomState).length := by
  rw [downsampleData_grid_eq points maxPoints zoomState h₁ h₂, weight_split]
  exact gridCluster_weight (processedPoints points zoomState) maxPoints
    (fun p hp => hplain p (processedPoints_subset points zoomState p hp))

/-- C2 witness: the three elongated points with `maxPoints = 2` and no
viewport reach the grid stage, and the accounting matches the three
processed points. -/
theorem downsample_conservation_witness :
    (((downsampleData exElongated 2 none).filter
        (fun p => p.isCluster)).map (fun p => p.clusterSize.getD 0)).sum
      + ((downsampleData exElongated 2 none).filter
          (fun p => !p.isCluster)).length
      = (processedPoints exElongated none).length :=
  downsample_conservation exElongated 2 none (by decide) (by decide)
    (fun z hz => nomatch hz)

/-- C6: the auto-scroll effect issues exactly one centered scroll request
when the selected id occurs in the current sorted row order — targeting
that id's row index — and issues nothing (and raises nothing) when the id
is absent or nothing is selected. -/
theorem auto_scroll_on_select (rows : List TableRow) (sid : String) :
    ((∃ r ∈ rows, r.id = sid) →
      ∃ i, autoScrollEffect rows (some sid)
            = [{ index := i, align := ScrollAlign.alignCenter, smooth := true }]
        ∧ (∃ r, rows[i]? = some r ∧ r.id = sid)
        ∧ (∀ r ∈ rows.take i, r.id ≠ sid))
  ∧ ((∀ r ∈ rows, r.id ≠ sid) → autoScrollEffect rows (some sid) = [])
  ∧ autoScrollEffect rows none = [] := by
  refine ⟨?_, ?_, rfl⟩
  · intro hex
    cases hidx : findIndex rows sid with
    | none =>
      obtain ⟨r, hr, hrid⟩ := hex
      exact absurd hrid ((findIndex_spec rows sid).2.mp hidx r hr)
    | some i =>
      obtain ⟨hat, htake⟩ := (findIndex_spec rows sid).1 i hidx
      exact ⟨i, by simp [autoScrollEffect, hidx], hat, htake⟩
  · intro hall
    have hnone : findIndex rows sid = none :=
      (findIndex_spec rows sid).2.mpr hall
    simp [autoScrollEffect, hnone]

/-- C6 witness: selecting "r1" among three rows issues the one centered
request at index 1; selecting an absent id issues nothing. -/
theorem auto_scroll_on_select_witness :
    (∃ i, autoScrollEffect exRows (some "r1")
          = [{ index := i, align := ScrollAlign.alignCenter, smooth := true }]
      ∧ (∃ r, exRows[i]? = some r ∧ r.id = "r1")
      ∧ (∀ r ∈ exRows.take i, r.id ≠ "r1"))
  ∧ autoScrollEffect exRows (some "zz") = [] :=
  ⟨(auto_scroll_on_select exRows "r1").1 (by decide),
   (auto_scroll_on_select exRows "zz").2.1 (by decide)⟩

/-- C7: `downsampleData` returns the input unchanged when it is small
enough; with a viewport it first restricts to the points inside the
rectangle (inclusive bounds on all four sides) and returns that
restriction unchanged when it is small enough. -/
theorem downsample_passthrough (points : List ChartDataPoint)
    (maxPoints : ℕ) (zoomState : Option ZoomState) :
    (points.length ≤ maxPoints →
      downsampleData points maxPoints zoomState = points)
  ∧ (∀ z, zoomState = some z → maxPoints < points.length →
      (points.filter (inViewport z)).length ≤ maxPoints →
      downsampleData points maxPoints zoomState
        = points.filter (inViewport z))
  ∧ (∀ z p, inViewport z p = true ↔
      z.xMin ≤ p.x ∧ p.x ≤ z.xMax ∧ z.yMin ≤ p.y ∧ p.y ≤ z.yMax) := by
  refine ⟨?_, ?_, ?_⟩
  · intro h
    simp [downsampleData, h]
  · intro z hz h₁ h₂
    subst hz
    simp [downsampleData, Nat.not_le.mpr h₁, h₂]
  · intro z p
    simp [inViewport, and_assoc]

/-- C7 witness: a one-point list passes through unchanged under
`maxPoints = 2`; with `maxPoints = 0` and a viewport containing no points,
the (empty) restriction is returned. -/
theorem downsample_passthrough_witness :
    downsampleData [exSmallPoint] 2 none = [exSmallPoint]
  ∧ downsampleData [exSmallPoint] 0 (some exViewportOff)
      = [exSmallPoint].filter (inViewport exViewportOff) :=
  ⟨(downsample_passthrough [exSmallPoint] 2 none).1 (by decide),
   (downsample_passthrough [exSmallPoint] 0 (some exViewportOff)).2.1
     exViewportOff rfl (by decide) (by decide)⟩

/-- C8: `downsampleData` is deterministic — two calls on equal point
lists, equal `maxPoints` and equal viewports return equal outputs (same
entries, same clusters, same membership). -/
theorem downsample_deterministic (points₁ points₂ : List ChartDataPoint)
    (m₁ m₂ : ℕ) (z₁ z₂ : Option ZoomState)
    (hp : points₁ = points₂) (hm : m₁ = m₂) (hz : z₁ = z₂) :
    downsampleData points₁ m₁ z₁ = downsampleData points₂ m₂ z₂ := by
  rw [hp, hm, hz]

/-- C8 witness: the two calls on the elongated example coincide. -/
theorem downsample_deterministic_witness :
    downsampleData exElongated 2 none = downsampleData exElongated 2 none :=
  downsample_deterministic exElongated exElongated 2 2 none none rfl rfl rfl

/-- C9: `toggleRegion` flips the membership of exactly the toggled region,
leaves every other region's membership unchanged, and applying it twice
restores the original membership of every region. -/
theorem toggleRegion_spec (s : FilterState) (region : String) :
    (region ∈ (toggleRegion s region).selectedRegions
      ↔ region ∉ s.selectedRegions)
  ∧ (∀ r, r ≠ region →
      (r ∈ (toggleRegion s region).selectedRegions
        ↔ r ∈ s.selectedRegions))
  ∧ (∀ r, r ∈ (toggleRegion (toggleRegion s region) region).selectedRegions
      ↔ r ∈ s.selectedRegions) := by
  by_cases h : region ∈ s.selectedRegions
  · have h₁ : (toggleRegion s region).selectedRegions
        = s.selectedRegions.filter (fun r => r != region) := by
      simp [toggleRegion, h]
    have h₂ : (toggleRegion (toggleRegion s region) region).selectedRegions
        = s.selectedRegions.filter (fun r => r != region) ++ [region] := by
      simp [toggleRegion, h, List.mem_filter]
    refine ⟨?_, ?_, ?_⟩
    · rw [h₁]
      simp [List.mem_filter, h]
    · intro r hr
      rw [h₁]
      simp [List.mem_filter, hr]
    · intro r
      rw [h₂]
      by_cases hr : r = region
      · subst hr
        simp [h]
      · simp [List.mem_filter, hr]
  · have h₁ : (toggleRegion s region).selectedRegions
        = s.selectedRegions ++ [region] := by
      simp [toggleRegion, h]
    have h₂ : (toggleRegion (toggleRegion s region) region).selectedRegions
        = (s.selectedRegions ++ [region]).filter (fun r => r != region) := by
      simp [toggleRegion, h]
    refine ⟨?_, ?_, ?_⟩
    · rw [h₁]
      simp [h]
    · intro r hr
      rw [h₁]
      simp [hr]
    · intro r
      rw [h₂]
      by_cases hr : r = region
      · subst hr
        simp [List.mem_filter, h]
      · simp [List.mem_filter, hr]

/-- C9 witness: toggling "alaska" removes it from the concrete state's
selection. -/
theorem toggleRegion_spec_witness :
    ¬ "alaska" ∈ (toggleRegion exFilterState "alaska").selectedRegions :=
  fun hmem =>
    (toggleRegion_spec exFilterState "alaska").1.mp hmem (by decide)

/-- C1 counterexample: with `maxPoints = 2` the three elongated points
produce a grid edge of `2`, land in three distinct cells, and the output
has 3 entries — more than `max(maxPoints, 1) = 2`, refuting the claimed
bound. -/
theorem downsample_bound_counterexample :
    ¬ ((downsampleData exElongated 2 none).length ≤ max 2 1) := by
  have h₁ : downsampleData exElongated 2 none = gridCluster exElongated 2 := rfl
  have hgs : gridSizeOf exElongated 2 = 2 := by
    unfold gridSizeOf
    rw [show maxList (exElongated.map (fun p => p.x)) = 4 from by decide,
        show minList (exElongated.map (fun p => p.x)) = 0 from by decide,
        show maxList (exElongated.map (fun p => p.y)) = 2 from by decide,
        show minList (exElongated.map (fun p => p.y)) = 0 from by decide,
        show ((4 : ℚ) - 0) * ((2 : ℚ) - 0) / ((2 : ℕ) : ℚ) = 2 * 2 from by
          norm_num,
        Rat.sqrt_eq]
    norm_num
  have hk₀ : pointKey 2
      { id := "a", x := 0, y := 0, magnitude := 1, place := "pa" }
      = (GridCoord.fin 0, GridCoord.fin 0) := by
    unfold pointKey gridIndex
    norm_num
  have hk₁ : pointKey 2
      { id := "b", x := 2, y := 0, magnitude := 2, place := "pb" }
      = (GridCoord.fin 1, GridCoord.fin 0) := by
    unfold pointKey gridIndex
    norm_num
  have hk₂ : pointKey 2
      { id := "c", x := 4, y := 2, magnitude := 3, place := "pc" }
      = (GridCoord.fin 2, GridCoord.fin 1) := by
    unfold pointKey gridIndex
    norm_num
  rw [h₁]
  unfold gridCluster
  rw [hgs]
  unfold groupPoints exElongated
  simp only [List.foldl_cons, List.foldl_nil]
  rw [hk₀, hk₁, hk₂]
  decide

/-- C3: each grid cell emits exactly one entry — a singleton cell its
point unchanged (still an individual entry), a larger cell one cluster
whose coordinates are the member means, whose magnitude is the member
maximum, whose `clusterSize` is the member-id count, and whose member ids
all belong to points assigned to that cell (hence to the processed set). -/
theorem downsample_cell_semantics (points : List ChartDataPoint)
    (maxPoints : ℕ) (zoomState : Option ZoomState)
    (hplain : ∀ p ∈ points, p.isCluster = false)
    (h₁ : maxPoints < points.length)
    (h₂ : ∀ z, zoomState = some z →
      maxPoints < (points.filter (inViewport z)).length) :
    downsampleData points maxPoints zoomState
      = (groupPoints (processedPoints points zoomState)
          (gridSizeOf (processedPoints points zoomState) maxPoints)).map
          (fun kc => cellEntry kc.2)
  ∧ ∀ kc ∈ groupPoints (processedPoints points zoomState)
        (gridSizeOf (processedPoints points zoomState) maxPoints),
      (∀ p, kc.2 = [p] →
        cellEntry kc.2 = p ∧ p.isCluster = false
          ∧ p ∈ downsampleData points maxPoints zoomState)
    ∧ (2 ≤ kc.2.length →
        cellEntry kc.2 ∈ downsampleData points maxPoints zoomState
      ∧ (cellEntry kc.2).isCluster = true
      ∧ (cellEntry kc.2).x
          = (kc.2.map (fun p => p.x)).sum / (kc.2.length : ℚ)
      ∧ (cellEntry kc.2).y
          = (kc.2.map (fun p => p.y)).sum / (kc.2.length : ℚ)
      ∧ (∃ q ∈ kc.2, (cellEntry kc.2).magnitude = q.magnitude)
      ∧ (∀ q ∈ kc.2, q.magnitude ≤ (cellEntry kc.2).magnitude)
      ∧ (cellEntry kc.2).clusterSize
          = some (kc.2.map (fun p => p.id)).length
      ∧ (cellEntry kc.2).earthquakeIds = some (kc.2.map (fun p => p.id))
      ∧ ∀ i ∈ kc.2.map (fun p => p.id), ∃ q ∈ kc.2,
          q.id = i ∧ q ∈ processedPoints points zoomState) := by
  have hout : downsampleData points maxPoints zoomState
      = (groupPoints (processedPoints points zoomState)
          (gridSizeOf (processedPoints points zoomState) maxPoints)).map
          (fun kc => cellEntry kc.2) := by
    rw [downsampleData_grid_eq points maxPoints zoomState h₁ h₂]
    rfl
  refine ⟨hout, ?_⟩
  intro kc hkc
  constructor
  · intro p hp
    have hpmem : p ∈ kc.2 := by rw [hp]; simp
    have hproc : p ∈ processedPoints points zoomState :=
      groupPoints_mem _ _ kc hkc p hpmem
    have hpl : p.isCluster = false :=
      hplain p (processedPoints_subset points zoomState p hproc)
    have hce : cellEntry kc.2 = p := by rw [hp]; rfl
    refine ⟨hce, hpl, ?_⟩
    rw [hout, ← hce]
    exact List.mem_map_of_mem _ hkc
  · intro hlen
    have hmk := cellEntry_eq_mkCluster kc.2 hlen
    have hne : kc.2 ≠ [] := groupPoints_ne_nil _ _ kc hkc
    have hmagne : kc.2.map (fun p => p.magnitude) ≠ [] := by
      simpa using hne
    have hmem : cellEntry kc.2 ∈ downsampleData points maxPoints zoomState := by
      rw [hout]
      exact List.mem_map_of_mem _ hkc
    refine ⟨hmem, ?_, ?_, ?_, ?_, ?_, ?_, ?_, ?_⟩
    · rw [hmk]
      rfl
    · rw [hmk]
      rfl
    · rw [hmk]
      rfl
    · obtain ⟨q, hq, hqmag⟩ :=
        List.mem_map.mp (maxList_mem _ hmagne)
      exact ⟨q, hq, by rw [hmk]; exact hqmag.symm⟩
    · intro q hq
      rw [hmk]
      exact le_maxList _ _ (List.mem_map_of_mem _ hq)
    · rw [hmk]
      simp [mkCluster]
    · rw [hmk]
      rfl
    · intro i hi
      obtain ⟨q, hq, hqid⟩ := List.mem_map.mp hi
      exact ⟨q, hq, hqid, groupPoints_mem _ _ kc hkc q hq⟩

/-- C3 witness: the cell semantics instantiated at the elongated example
with `maxPoints = 2` and no viewport. -/
theorem downsample_cell_semantics_witness :
    downsampleData exElongated 2 none
      = (groupPoints (processedPoints exElongated none)
          (gridSizeOf (processedPoints exElongated none) 2)).map
          (fun kc => cellEntry kc.2)
  ∧ ∀ kc ∈ groupPoints (processedPoints exElongated none)
        (gridSizeOf (processedPoints exElongated none) 2),
      (∀ p, kc.2 = [p] →
        cellEntry kc.2 = p ∧ p.isCluster = false
          ∧ p ∈ downsampleData exElongated 2 none)
    ∧ (2 ≤ kc.2.length →
        cellEntry kc.2 ∈ downsampleData exElongated 2 none
      ∧ (cellEntry kc.2).isCluster = true
      ∧ (cellEntry kc.2).x
          = (kc.2.map (fun p => p.x)).sum / (kc.2.length : ℚ)
      ∧ (cellEntry kc.2).y
          = (kc.2.map (fun p => p.y)).sum / (kc.2.length : ℚ)
      ∧ (∃ q ∈ kc.2, (cellEntry kc.2).magnitude = q.magnitude)
      ∧ (∀ q ∈ kc.2, q.magnitude ≤ (cellEntry kc.2).magnitude)
      ∧ (cellEntry kc.2).clusterSize
          = some (kc.2.map (fun p => p.id)).length
      ∧ (cellEntry kc.2).earthquakeIds = some (kc.2.map (fun p => p.id))
      ∧ ∀ i ∈ kc.2.map (fun p => p.id), ∃ q ∈ kc.2,
          q.id = i ∧ q ∈ processedPoints exElongated none) :=
  downsample_cell_semantics exElongated 2 none (by decide) (by decide)
    (fun z hz => nomatch hz)

/-- C4 counterexample: the vertical example reaches the grid stage with an
x-span of zero, and the grid edge the code computes is `0`, not a minimum
positive fallback — the division in the cell assignment is a division by
zero (yielding infinite grid indices under JS semantics). -/
theorem grid_edge_fallback_counterexample :
    1 < exVertical.length
  ∧ maxList (exVertical.map (fun p => p.x))
      = minList (exVertical.map (fun p => p.x))
  ∧ ¬ (0 < gridSizeOf exVertical 1) := by
  refine ⟨by decide, by decide, ?_⟩
  have h : gridSizeOf exVertical 1 = 0 := by
    unfold gridSizeOf
    rw [show maxList (exVertical.map (fun p => p.x)) = 5 from by decide,
        show minList (exVertical.map (fun p => p.x)) = 5 from by decide,
        show maxList (exVertical.map (fun p => p.y)) = 3 from by decide,
        show minList (exVertical.map (fun p => p.y)) = 1 from by decide,
        show ((5 : ℚ) - 5) * ((3 : ℚ) - 1) / ((1 : ℕ) : ℚ) = 0 * 0 from by
          norm_num,
        Rat.sqrt_eq]
    norm_num
  rw [h]
  exact lt_irrefl 0

/-- C4 (amended): `downsampleData` is total — an empty input yields an
empty result, and a point set whose members all coincide is returned as a
single cluster of all of them: every point gets the same grid key, so the
zero grid edge (there is no minimum-positive fallback, and the JS division
by zero yields infinite indices rather than an exception) still sends all
of them to one cell. -/
theorem downsample_degenerate_spec (points : List ChartDataPoint)
    (maxPoints : ℕ) (x₀ y₀ : ℚ)
    (hcoin : ∀ p ∈ points, p.x = x₀ ∧ p.y = y₀)
    (hlen : 2 ≤ points.length) (hmax : maxPoints < points.length) :
    downsampleData ([] : List ChartDataPoint) maxPoints none = []
  ∧ ∃ e, downsampleData points maxPoints none = [e]
      ∧ e.isCluster = true ∧ e.clusterSize = some points.length := by
  constructor
  · simp [downsampleData]
  · have hne : points ≠ [] := by
      intro h
      rw [h] at hlen
      simp at hlen
    have hk : ∀ p ∈ points,
        pointKey (gridSizeOf points maxPoints) p
          = (gridIndex x₀ (gridSizeOf points maxPoints),
             gridIndex y₀ (gridSizeOf points maxPoints)) := by
      intro p hp
      obtain ⟨hx, hy⟩ := hcoin p hp
      simp [pointKey, hx, hy]
    have hgrid : downsampleData points maxPoints none
        = gridCluster points maxPoints := by
      rw [downsampleData_grid_eq points maxPoints none hmax
        (fun z hz => nomatch hz)]
      rfl
    rw [hgrid]
    unfold gridCluster
    rw [groupPoints_const _ _ points hne hk]
    refine ⟨cellEntry points, by simp, ?_, ?_⟩
    · rw [cellEntry_eq_mkCluster points hlen]
      rfl
    · rw [cellEntry_eq_mkCluster points hlen]
      rfl

/-- C4 witness: three coincident points with `maxPoints = 1` come back as
one cluster of size 3, and the empty input comes back empty. -/
theorem downsample_degenerate_witness :
    downsampleData ([] : List ChartDataPoint) 1 none = []
  ∧ ∃ e, downsampleData exCoincident 1 none = [e]
      ∧ e.isCluster = true ∧ e.clusterSize = some exCoincident.length :=
  downsample_degenerate_spec exCoincident 1 1 1 (by decide) (by decide)
    (by decide)

/-- C5 counterexample: activating the cluster of "a" and "b" — which share
their x value — produces a zoom rectangle with `xMin = xMax`: the x axis
gets no minimum nominal span and the rectangle is degenerate, refuting the
non-degeneracy part of the claim. -/
theorem cluster_zoom_counterexample :
    (computeClusterZoom exAxisData exMemberIds).xMin
      = (computeClusterZoom exAxisData exMemberIds).xMax := by
  have hfilter : exAxisData.filter (fun r => exMemberIds.contains r.id)
      = [{ id := "a", x := 3, y := 0 }, { id := "b", x := 3, y := 5 }] := by
    decide
  simp only [computeClusterZoom, hfilter]
  rw [show maxList
        ([({ id := "a", x := 3, y := 0 } : AxisRecord),
          { id := "b", x := 3, y := 5 }].map (fun r => r.x)) = 3 from by
        decide,
      show minList
        ([({ id := "a", x := 3, y := 0 } : AxisRecord),
          { id := "b", x := 3, y := 5 }].map (fun r => r.x)) = 3 from by
        decide]
  norm_num

/-- C5 (amended): the zoom rectangle of an activated cluster is exactly
the bounding box of the cluster's member points under the active axis
pair, expanded by 10% of each axis span on each side — with no minimum
nominal span, so a zero-span axis yields a degenerate interval. -/
theorem computeClusterZoom_spec (data : List AxisRecord)
    (memberIds : List String)
    (hne : data.filter (fun r => memberIds.contains r.id) ≠ []) :
    ∃ xmin xmax ymin ymax : ℚ,
      (∀ r ∈ data.filter (fun r => memberIds.contains r.id),
        xmin ≤ r.x ∧ r.x ≤ xmax ∧ ymin ≤ r.y ∧ r.y ≤ ymax)
    ∧ (∃ r ∈ data.filter (fun r => memberIds.contains r.id), r.x = xmin)
    ∧ (∃ r ∈ data.filter (fun r => memberIds.contains r.id), r.x = xmax)
    ∧ (∃ r ∈ data.filter (fun r => memberIds.contains r.id), r.y = ymin)
    ∧ (∃ r ∈ data.filter (fun r => memberIds.contains r.id), r.y = ymax)
    ∧ computeClusterZoom data memberIds
        = { xMin := xmin - (xmax - xmin) * (1 / 10)
            xMax := xmax + (xmax - xmin) * (1 / 10)
            yMin := ymin - (ymax - ymin) * (1 / 10)
            yMax := ymax + (ymax - ymin) * (1 / 10) } := by
  refine ⟨minList ((data.filter (fun r => memberIds.contains r.id)).map
      (fun r => r.x)),
    maxList ((data.filter (fun r => memberIds.contains r.id)).map
      (fun r => r.x)),
    minList ((data.filter (fun r => memberIds.contains r.id)).map
      (fun r => r.y)),
    maxList ((data.filter (fun r => memberIds.contains r.id)).map
      (fun r => r.y)),
    ?_, ?_, ?_, ?_, ?_, ?_⟩
  · intro r hr
    exact ⟨minList_le _ _ (List.mem_map_of_mem _ hr),
           le_maxList _ _ (List.mem_map_of_mem _ hr),
           minList_le _ _ (List.mem_map_of_mem _ hr),
           le_maxList _ _ (List.mem_map_of_mem _ hr)⟩
  · obtain ⟨r, hr, hrv⟩ :=
      List.mem_map.mp (minList_mem
        ((data.filter (fun r => memberIds.contains r.id)).map (fun r => r.x))
        (fun h => hne (List.map_eq_nil_iff.mp h)))
    exact ⟨r, hr, hrv⟩
  · obtain ⟨r, hr, hrv⟩ :=
      List.mem_map.mp (maxList_mem
        ((data.filter (fun r => memberIds.contains r.id)).map (fun r => r.x))
        (fun h => hne (List.map_eq_nil_iff.mp h)))
    exact ⟨r, hr, hrv⟩
  · obtain ⟨r, hr, hrv⟩ :=
      List.mem_map.mp (minList_mem
        ((data.filter (fun r => memberIds.contains r.id)).map (fun r => r.y))
        (fun h => hne (List.map_eq_nil_iff.mp h)))
    exact ⟨r, hr, hrv⟩
  · obtain ⟨r, hr, hrv⟩ :=
      List.mem_map.mp (maxList_mem
        ((data.filter (fun r => memberIds.contains r.id)).map (fun r => r.y))
        (fun h => hne (List.map_eq_nil_iff.mp h)))
    exact ⟨r, hr, hrv⟩
  · rfl

/-- C5 witness: the bounding-box characterization instantiated at the
concrete cluster of "a" and "b". -/
theorem computeClusterZoom_witness :
    ∃ xmin xmax ymin ymax : ℚ,
      (∀ r ∈ exAxisData.filter (fun r => exMemberIds.contains r.id),
        xmin ≤ r.x ∧ r.x ≤ xmax ∧ ymin ≤ r.y ∧ r.y ≤ ymax)
    ∧ (∃ r ∈ exAxisData.filter (fun r => exMemberIds.contains r.id), r.x = xmin)
    ∧ (∃ r ∈ exAxisData.filter (fun r => exMemberIds.contains r.id), r.x = xmax)
    ∧ (∃ r ∈ exAxisData.filter (fun r => exMemberIds.contains r.id), r.y = ymin)
    ∧ (∃ r ∈ exAxisData.filter (fun r => exMemberIds.contains r.id), r.y = ymax)
    ∧ computeClusterZoom exAxisData exMemberIds
        = { xMin := xmin - (xmax - xmin) * (1 / 10)
            xMax := xmax + (xmax - xmin) * (1 / 10)
            yMin := ymin - (ymax - ymin) * (1 / 10)
            yMax := ymax + (ymax - ymin) * (1 / 10) } :=
  computeClusterZoom_spec exAxisData exMemberIds (by decide)

/-- C10: `resetFilters` restores the filter defaults and clears both the
selection and the hover, whatever the prior state was. -/
theorem resetFilters_clears_selection (s : FilterState) :
    (resetFilters s).selectedId = none
  ∧ (resetFilters s).hoveredId = none
  ∧ (resetFilters s).minMagnitude = 0
  ∧ (resetFilters s).maxMagnitude = 10
  ∧ (resetFilters s).selectedRegions = [] :=
  ⟨rfl, rfl, rfl, rfl, rfl⟩

end EarthquakeDashboard
